import Mathlib

/-!
Shallow embedding of `src/evidencia.py`, a coworking-space room-booking
program backed by a SQLite store, together with proofs about its
booking/availability core.

Modelling conventions:
* Python `datetime.date` values are represented by their proleptic ordinal
  (`datetime.date.toordinal`) as an `Int`; day 1 (0001-01-01) is a Monday,
  so `date.weekday()` is `(ordinal - 1) % 7` and Sunday is weekday `6`.
  Date arithmetic (`timedelta(days=n)`, `(d1 - d2).days`) becomes `Int`
  arithmetic on ordinals.  String parsing (`strptime`) is interaction glue;
  the embedded validators receive the parse outcome as an `Option Int`.
* Python strings are Lean `String`s.  `str.strip()`, `str.lower()` and
  `str.replace(" ", "")` are embedded as the character-list functions
  `pyStrip`, `pyLower` and `quitarEspacios` below (ASCII case folding and
  Lean's whitespace predicate stand in for Python's Unicode tables).
* The SQLite database is the explicit state `DB`: the three tables as
  lists in rowid order plus the `AUTOINCREMENT` counters (first id 1).
* Each interactive flow of the program becomes a one-shot function on
  `DB`: every `input()` becomes a parameter, each validation re-prompt
  loop reports its first failure as a tagged error (the tag names the
  message the program prints), and a flow that completes returns the
  updated state.  Errors leave the state unchanged.
-/

deriving instance DecidableEq for Except

namespace Evidencia

/-- Python `str.strip()` on a character list: drop leading and trailing
whitespace. -/
def stripChars (l : List Char) : List Char :=
  ((l.dropWhile Char.isWhitespace).reverse.dropWhile Char.isWhitespace).reverse

/-- Python `str.strip()`. -/
def pyStrip (s : String) : String := ⟨stripChars s.data⟩

/-- Python `str.lower()` (ASCII case folding). -/
def pyLower (s : String) : String := ⟨s.data.map Char.toLower⟩

/-- Python `texto.replace(" ", "")`: with a one-character pattern and empty
replacement this deletes every space. -/
def quitarEspacios (s : String) : String := ⟨s.data.filter (fun c => c ≠ ' ')⟩

/-- SQLite `ORDER BY` comparison on text under the default BINARY
collation, as a lexicographic comparison of character codes. -/
def strLeAux : List Char → List Char → Bool
  | [], _ => true
  | _ :: _, [] => false
  | a :: as, b :: bs =>
    if a.toNat < b.toNat then true
    else if b.toNat < a.toNat then false
    else strLeAux as bs

/-- `strLe s t`: `s` sorts no later than `t` under SQLite's BINARY text
ordering. -/
def strLe (s t : String) : Bool := strLeAux s.data t.data

/-- Python `date.weekday()` on an ordinal: Monday is `0`, Sunday is `6`. -/
def weekday (d : Int) : Int := (d - 1) % 7

/-- Tagged outcomes of the two date validators; each tag names one of the
rejection messages printed by `validar_fecha` / `validar_fecha_simple`. -/
inductive DateError
  | invalidDateFormat
  | dateTooSoon
  | sundayBlocked
deriving DecidableEq, Repr

/-- `validar_fecha` (evidencia.py lines 75-94), the interactive validator:
parse failure and the two policy rejections return `None` after printing a
message; on a Sunday the program proposes the next day and accepts it when
the caller answers `s` (lower-cased).  `parsed` is the `strptime` outcome,
`hoy` is `date.today()`, `aceptar` the caller's raw answer. -/
def validar_fecha (parsed : Option Int) (hoy : Int) (aceptar : String) :
    Except DateError Int :=
  match parsed with
  | none => .error .invalidDateFormat
  | some fecha =>
    if fecha - hoy < 2 then .error .dateTooSoon
    else if weekday fecha = 6 then
      if pyLower aceptar = "s" then .ok (fecha + 1)
      else .error .sundayBlocked
    else .ok fecha

/-- `validar_fecha_simple` (evidencia.py lines 132-149), the strict
validator used by the reservation flow: same parse and lead-time checks,
but a Sunday is rejected unconditionally. -/
def validar_fecha_simple (parsed : Option Int) (hoy : Int) :
    Except DateError Int :=
  match parsed with
  | none => .error .invalidDateFormat
  | some fecha =>
    if fecha - hoy < 2 then .error .dateTooSoon
    else if weekday fecha = 6 then .error .sundayBlocked
    else .ok fecha

/-- `validar_evento` (line 66): the event name, once stripped, is not
empty. -/
def validar_evento (evento : String) : Bool := pyStrip evento != ""

/-- `validar_texto` (line 72): Python `texto.replace(" ", "").isalpha()`;
`isalpha` is false on the empty string. -/
def validar_texto (texto : String) : Bool :=
  quitarEspacios texto != "" && (quitarEspacios texto).data.all Char.isAlpha

/-- A row of the `clientes` table (schema at lines 40-44). -/
structure Cliente where
  id_cliente : Nat
  nombre : String
  apellidos : String
deriving DecidableEq, Repr

/-- A row of the `salas` table (schema at lines 46-51). -/
structure Sala where
  id_sala : Nat
  nombre : String
  cupo : Nat
deriving DecidableEq, Repr

/-- A row of the `reservaciones` table (schema at lines 53-63).  The
stored `fecha_registro` timestamp is split into its date part `fecha`
(what `DATE(fecha_registro)` extracts) and its time-of-day part `hora`
(`datetime.now().time()` at creation, line 218). -/
structure Reservacion where
  folio : Nat
  id_cliente : Nat
  id_sala : Nat
  fecha : Int
  hora : Nat
  turno : String
  evento : String
deriving DecidableEq, Repr

/-- The database state: the three tables in rowid order plus the
`AUTOINCREMENT` counters (SQLite assigns 1 to the first row). -/
structure DB where
  clientes : List Cliente
  salas : List Sala
  reservaciones : List Reservacion
  nextCliente : Nat
  nextSala : Nat
  nextFolio : Nat
deriving DecidableEq, Repr

/-- The freshly initialised database (`inicializar_bd`, lines 36-64):
empty tables. -/
def DB.empty : DB := ⟨[], [], [], 1, 1, 1⟩

/-- `validar_clave_cliente` (line 69): the chosen key appears among the
listed clients. -/
def validar_clave_cliente (clave : Nat) (clientes : List Cliente) : Bool :=
  clientes.any (fun c => c.id_cliente == clave)

/-- `sala_disponible` (lines 96-103): no stored reservation has this
room, date (compared via `DATE(fecha_registro)`) and shift. -/
def sala_disponible (db : DB) (id_sala : Nat) (fecha : Int) (turno : String) :
    Bool :=
  (db.reservaciones.filter
    (fun r => r.id_sala == id_sala && r.fecha == fecha && r.turno == turno)).length == 0

/-- The three fixed shifts, in the order the program iterates them
(line 186). -/
def turnos : List String := ["mañana", "tarde", "noche"]

/-- The free shifts of a room on a date: the `turnos_libres` list built at
lines 185-188 by testing `sala_disponible` for each fixed shift. -/
def turnos_libres (db : DB) (id_sala : Nat) (fecha : Int) : List String :=
  turnos.filter (fun t => sala_disponible db id_sala fecha t)

/-- The rooms offered for selection: `disponible_salas` (lines 183-190)
keeps the rooms with at least one free shift on the date. -/
def disponible_salas (db : DB) (fecha : Int) : List Sala :=
  db.salas.filter (fun s => !(turnos_libres db s.id_sala fecha).isEmpty)

/-- Rejections of `registrar_cliente` (lines 105-115). -/
inductive ClienteError
  | nombreInvalido
  | apellidosInvalidos
deriving DecidableEq, Repr

/-- `registrar_cliente` (lines 105-115) as a one-shot state transformer:
both names are stripped, must pass `validar_texto`, and the client is
inserted with the next autoincrement id. -/
def registrar_cliente (db : DB) (nombre apellidos : String) :
    Except ClienteError DB :=
  let n := pyStrip nombre
  if !validar_texto n then .error .nombreInvalido else
  let a := pyStrip apellidos
  if !validar_texto a then .error .apellidosInvalidos else
  .ok { db with
        clientes := db.clientes ++ [⟨db.nextCliente, n, a⟩],
        nextCliente := db.nextCliente + 1 }

/-- Rejections of `registrar_sala` (lines 117-130). -/
inductive SalaError
  | nombreInvalido
  | cupoInvalido
deriving DecidableEq, Repr

/-- `registrar_sala` (lines 117-130): stripped name must pass
`validar_texto`, the capacity must be positive; the room is inserted with
the next autoincrement id.  `cupo` is the parsed integer input; the
`int()` parse failure is a re-prompt, i.e. interaction glue. -/
def registrar_sala (db : DB) (nombre : String) (cupo : Int) :
    Except SalaError DB :=
  let n := pyStrip nombre
  if !validar_texto n then .error .nombreInvalido else
  if cupo ≤ 0 then .error .cupoInvalido else
  .ok { db with
        salas := db.salas ++ [⟨db.nextSala, n, cupo.toNat⟩],
        nextSala := db.nextSala + 1 }

/-- First-failure outcomes of the `registrar_reservacion` flow
(lines 151-248), in the order the program checks them.  The last two tags
model the confirmation lookups after the `INSERT` (lines 230-235): a
missing row makes `[0]` raise an uncaught `IndexError`, the connection's
context manager rolls the transaction back, and nothing persists. -/
inductive RegError
  | noClientes
  | clienteNoEncontrado
  | fechaInvalida
  | noSalas
  | noSalasDisponibles
  | seleccionInvalida
  | salaOcupada
  | eventoVacio
  | clienteNoExiste
  | salaNoExiste
deriving DecidableEq, Repr

/-- The confirmation data printed on success (lines 237-243). -/
structure Confirm where
  folio : Nat
  cliente : String
  sala : String
  fecha : Int
  turno : String
  evento : String
deriving DecidableEq, Repr

/-- `registrar_reservacion` (lines 151-248) as a one-shot state
transformer.  Parameters are the interactive inputs: the chosen client
key, the parsed reservation date (validated against `hoy` by
`validar_fecha_simple`), the typed room id (never checked against the
room table), the raw shift answer (lower-cased, must be one of the three
shifts, slot must be free), the raw event name (stripped, must be
non-blank), and the wall-clock time `hora` stored inside
`fecha_registro`.  On success the reservation is inserted with the next
folio and the confirmation is returned. -/
def registrar_reservacion (db : DB) (hoy : Int) (id_cliente : Nat)
    (fecha : Int) (id_sala : Nat) (turno_raw : String) (evento_raw : String)
    (hora : Nat) : Except RegError (DB × Confirm) :=
  if db.clientes.isEmpty then .error .noClientes else
  if !validar_clave_cliente id_cliente db.clientes then .error .clienteNoEncontrado else
  match validar_fecha_simple (some fecha) hoy with
  | .error _ => .error .fechaInvalida
  | .ok f =>
    if db.salas.isEmpty then .error .noSalas else
    if (disponible_salas db f).isEmpty then .error .noSalasDisponibles else
    let turno := pyLower turno_raw
    if !(turnos.contains turno) then .error .seleccionInvalida else
    if !sala_disponible db id_sala f turno then .error .salaOcupada else
    let evento := pyStrip evento_raw
    if !validar_evento evento then .error .eventoVacio else
    match (db.clientes.filter (fun c => c.id_cliente == id_cliente)).head? with
    | none => .error .clienteNoExiste
    | some c =>
      match (db.salas.filter (fun s => s.id_sala == id_sala)).head? with
      | none => .error .salaNoExiste
      | some s =>
        .ok ({ db with
               reservaciones := db.reservaciones ++
                 [⟨db.nextFolio, id_cliente, id_sala, f, hora, turno, evento⟩],
               nextFolio := db.nextFolio + 1 },
             ⟨db.nextFolio, c.nombre ++ " " ++ c.apellidos, s.nombre, f, turno, evento⟩)

/-- First-failure outcomes of the `editar_evento` flow (lines 250-305);
date parse failures are interaction glue (the dates arrive parsed). -/
inductive EditError
  | sinReservaciones
  | cancelado
  | folioNoEncontrado
  | eventoVacio
deriving DecidableEq, Repr

/-- The reservations whose date lies in the inclusive range `fi..ff`
(lines 260-268: one `DATE(fecha_registro) = ?` query per day of the
range, concatenated; an empty or reversed range yields no rows).  Only
its emptiness and its folios are consumed by the rest of the flow. -/
def rango_reservaciones (db : DB) (fi ff : Int) : List Reservacion :=
  db.reservaciones.filter (fun r => fi ≤ r.fecha && r.fecha ≤ ff)

/-- `editar_evento` (lines 250-305) as a one-shot state transformer: the
range must contain reservations, folio `0` cancels, the folio must occur
in the range, the stripped new name must be non-empty, and then the
`UPDATE` at line 304 rewrites `evento` for every row with that folio. -/
def editar_evento (db : DB) (fi ff : Int) (folio : Nat) (nuevo_raw : String) :
    Except EditError DB :=
  let enRango := rango_reservaciones db fi ff
  if enRango.isEmpty then .error .sinReservaciones else
  if folio == 0 then .error .cancelado else
  if !(enRango.any (fun r => r.folio == folio)) then .error .folioNoEncontrado else
  let nuevo := pyStrip nuevo_raw
  if nuevo == "" then .error .eventoVacio else
  .ok { db with
        reservaciones := db.reservaciones.map
          (fun r => if r.folio == folio then { r with evento := nuevo } else r) }

/-- A row of the daily consultation report (lines 319-327): folio, the
client's display name `nombre || ' ' || apellidos`, the room name, shift
and event. -/
structure Registro where
  folio : Nat
  cliente : String
  sala : String
  turno : String
  evento : String
deriving DecidableEq, Repr

/-- The rows produced by the `FROM reservaciones r JOIN clientes c JOIN
salas s WHERE DATE(r.fecha_registro) = ?` query of
`consultar_reservaciones`, before its `ORDER BY`: every combination of a
reservation on the date with a matching client row and matching room
row. -/
def joinRows (db : DB) (fecha : Int) : List Registro :=
  (db.reservaciones.filter (fun r => r.fecha == fecha)).flatMap (fun r =>
    (db.clientes.filter (fun c => c.id_cliente == r.id_cliente)).flatMap (fun c =>
      (db.salas.filter (fun s => s.id_sala == r.id_sala)).map (fun s =>
        ⟨r.folio, c.nombre ++ " " ++ c.apellidos, s.nombre, r.turno, r.evento⟩)))

/-- The `ORDER BY r.turno` ordering on report rows: BINARY-collation
comparison of the raw shift strings. -/
def registroLe (a b : Registro) : Prop := strLe a.turno b.turno = true

instance : DecidableRel registroLe :=
  fun a b => inferInstanceAs (Decidable (strLe a.turno b.turno = true))

instance : IsTotal Registro registroLe where
  total a b := by
    unfold registroLe strLe
    generalize a.turno.data = as
    generalize b.turno.data = bs
    induction as generalizing bs with
    | nil => left; rfl
    | cons x xs ih =>
      cases bs with
      | nil => right; rfl
      | cons y ys =>
        rcases Nat.lt_trichotomy x.toNat y.toNat with h | h | h
        · left; simp [strLeAux, h]
        · rcases ih ys with h2 | h2
          · left; simpa [strLeAux, h, Nat.lt_irrefl] using h2
          · right; simpa [strLeAux, h, Nat.lt_irrefl] using h2
        · right; simp [strLeAux, h]

instance : IsTrans Registro registroLe where
  trans a b c := by
    unfold registroLe strLe
    generalize a.turno.data = as
    generalize b.turno.data = bs
    generalize c.turno.data = cs
    induction as generalizing bs cs with
    | nil => intro _ _; rfl
    | cons x xs ih =>
      cases bs with
      | nil => intro h; exact absurd h (by simp [strLeAux])
      | cons y ys =>
        cases cs with
        | nil => intro _ h; exact absurd h (by simp [strLeAux])
        | cons z zs =>
          intro h1 h2
          by_cases hxy : x.toNat < y.toNat
          · by_cases hyz : y.toNat < z.toNat
            · have hxz : x.toNat < z.toNat := Nat.lt_trans hxy hyz
              simp [strLeAux, hxz]
            · by_cases hzy : z.toNat < y.toNat
              · simp [strLeAux, hyz, hzy] at h2
              · have hxz : x.toNat < z.toNat := by omega
                simp [strLeAux, hxz]
          · by_cases hyx : y.toNat < x.toNat
            · simp [strLeAux, hxy, hyx] at h1
            · have h1' : strLeAux xs ys = true := by
                simpa [strLeAux, hxy, hyx] using h1
              by_cases hyz : y.toNat < z.toNat
              · have hxz : x.toNat < z.toNat := by omega
                simp [strLeAux, hxz]
              · by_cases hzy : z.toNat < y.toNat
                · simp [strLeAux, hyz, hzy] at h2
                · have h2' : strLeAux ys zs = true := by
                    simpa [strLeAux, hyz, hzy] using h2
                  have hxz : ¬ x.toNat < z.toNat := by omega
                  have hzx : ¬ z.toNat < x.toNat := by omega
                  simpa [strLeAux, hxz, hzx] using ih ys zs h1' h2'

/-- `consultar_reservaciones` (lines 308-338): the joined rows of the
requested date, sorted by the raw shift string (`ORDER BY r.turno`); the
sort is modelled as a stable insertion sort under `registroLe`. -/
def consultar_reservaciones (db : DB) (fecha : Int) : List Registro :=
  List.insertionSort registroLe (joinRows db fecha)

/-- The database states reachable from a fresh database through the
exposed state-changing operations; a failed operation leaves the state
unchanged, so only successful outcomes appear. -/
inductive Reach : DB → Prop
  | init : Reach DB.empty
  | cliente {db db' : DB} (nombre apellidos : String) :
      Reach db → registrar_cliente db nombre apellidos = .ok db' → Reach db'
  | sala {db db' : DB} (nombre : String) (cupo : Int) :
      Reach db → registrar_sala db nombre cupo = .ok db' → Reach db'
  | reservacion {db db' : DB} (conf : Confirm) (hoy : Int) (id_cliente : Nat)
      (fecha : Int) (id_sala : Nat) (turno evento : String) (hora : Nat) :
      Reach db →
      registrar_reservacion db hoy id_cliente fecha id_sala turno evento hora
        = .ok (db', conf) →
      Reach db'
  | editar {db db' : DB} (fi ff : Int) (folio : Nat) (nuevo : String) :
      Reach db → editar_evento db fi ff folio nuevo = .ok db' → Reach db'

/-- Concrete state: one registered client. -/
def dbEjCli : DB := ⟨[⟨1, "Ana", "Lopez"⟩], [], [], 2, 1, 1⟩

/-- Concrete state: one client and one room. -/
def dbEj : DB := ⟨[⟨1, "Ana", "Lopez"⟩], [⟨1, "Azul", 4⟩], [], 2, 2, 1⟩

/-- Concrete state: one client, one room, one morning reservation on
date 3. -/
def dbEjRes : DB :=
  ⟨[⟨1, "Ana", "Lopez"⟩], [⟨1, "Azul", 4⟩],
   [⟨1, 1, 1, 3, 10, "mañana", "Kickoff"⟩], 2, 2, 2⟩

/-- Concrete state: `dbEjRes` after a second, afternoon reservation on
the same date. -/
def dbEjDos : DB :=
  ⟨[⟨1, "Ana", "Lopez"⟩], [⟨1, "Azul", 4⟩],
   [⟨1, 1, 1, 3, 10, "mañana", "Kickoff"⟩,
    ⟨2, 1, 1, 3, 12, "tarde", "Junta"⟩], 2, 2, 3⟩

/-- Concrete state: `dbEjRes` after its single event name was edited. -/
def dbEjResEd : DB :=
  ⟨[⟨1, "Ana", "Lopez"⟩], [⟨1, "Azul", 4⟩],
   [⟨1, 1, 1, 3, 10, "mañana", "Nuevo"⟩], 2, 2, 2⟩

/-- Concrete state: an afternoon (`tarde`) and an evening (`noche`)
reservation on date 3. -/
def dbEjTN : DB :=
  ⟨[⟨1, "Ana", "Lopez"⟩], [⟨1, "Azul", 4⟩],
   [⟨1, 1, 1, 3, 10, "tarde", "E1"⟩,
    ⟨2, 1, 1, 3, 11, "noche", "E2"⟩], 2, 2, 3⟩

/-- Modelled from the spec (§4.4): the shift order `morning, then
afternoon, then evening` that the spec claims for `findByDate`, as a rank
on the stored shift labels. -/
def specShiftRank (t : String) : Nat :=
  if t = "mañana" then 0 else if t = "tarde" then 1 else 2

/-- Modelled from the spec (§4.4): a report ordered by shift in the
spec's sense, morning before afternoon before evening. -/
def SpecShiftOrdered (l : List Registro) : Prop :=
  l.Pairwise (fun a b => specShiftRank a.turno ≤ specShiftRank b.turno)

/-- Two reservations occupy distinct slots: they differ in room, date or
shift. -/
def SlotDistinct (r1 r2 : Reservacion) : Prop :=
  ¬(r1.id_sala = r2.id_sala ∧ r1.fecha = r2.fecha ∧ r1.turno = r2.turno)

/-- The state invariant maintained by the operations: pairwise-distinct
slots, folios below and client/room ids below their autoincrement
counters, pairwise-distinct ids, non-blank event names, and shift labels
drawn from the fixed three. -/
def Inv (db : DB) : Prop :=
  List.Pairwise SlotDistinct db.reservaciones
  ∧ (∀ r ∈ db.reservaciones, r.folio < db.nextFolio)
  ∧ (∀ r ∈ db.reservaciones, pyStrip r.evento ≠ "")
  ∧ (∀ r ∈ db.reservaciones, r.turno ∈ turnos)
  ∧ (∀ c ∈ db.clientes, c.id_cliente < db.nextCliente)
  ∧ List.Pairwise (fun c1 c2 => c1.id_cliente ≠ c2.id_cliente) db.clientes
  ∧ (∀ s ∈ db.salas, s.id_sala < db.nextSala)
  ∧ List.Pairwise (fun s1 s2 => s1.id_sala ≠ s2.id_sala) db.salas

/-- Whatever `dropWhile p` exposes at the head no longer satisfies `p`. -/
theorem dropWhile_head_false {α : Type} (p : α → Bool) (l : List α) :
    ∀ a, (l.dropWhile p).head? = some a → p a = false := by
  induction l with
  | nil => intro a h; simp at h
  | cons x xs ih =>
    intro a h
    by_cases hp : p x = true
    · rw [List.dropWhile_cons_of_pos hp] at h
      exact ih a h
    · rw [List.dropWhile_cons_of_neg hp] at h
      simp only [List.head?_cons, Option.some.injEq] at h
      rw [← h]
      exact Bool.eq_false_iff.mpr hp

/-- A list whose head fails `p` is untouched by `dropWhile p`. -/
theorem dropWhile_eq_self_of_head {α : Type} (p : α → Bool) (l : List α)
    (h : ∀ a, l.head? = some a → p a = false) : l.dropWhile p = l := by
  cases l with
  | nil => rfl
  | cons x xs =>
    have := h x rfl
    rw [List.dropWhile_cons_of_neg (by simp [this])]

/-- `dropWhile` is idempotent. -/
theorem dropWhile_idem {α : Type} (p : α → Bool) (l : List α) :
    (l.dropWhile p).dropWhile p = l.dropWhile p :=
  dropWhile_eq_self_of_head p _ (dropWhile_head_false p l)

/-- Stripping is idempotent at the character-list level. -/
theorem stripChars_idem (l : List Char) :
    stripChars (stripChars l) = stripChars l := by
  unfold stripChars
  have h1 : (((l.dropWhile Char.isWhitespace).reverse.dropWhile
      Char.isWhitespace).reverse).dropWhile Char.isWhitespace =
      ((l.dropWhile Char.isWhitespace).reverse.dropWhile
        Char.isWhitespace).reverse := by
    apply dropWhile_eq_self_of_head
    intro a ha
    rw [List.head?_reverse] at ha
    set B := (l.dropWhile Char.isWhitespace).reverse.dropWhile Char.isWhitespace
      with hB
    have hBne : B ≠ [] := by
      intro hnil
      rw [hnil] at ha
      simp at ha
    obtain ⟨t, ht⟩ := List.dropWhile_suffix
      (l := (l.dropWhile Char.isWhitespace).reverse) Char.isWhitespace
    have hlast : (l.dropWhile Char.isWhitespace).reverse.getLast? = some a := by
      rw [← ht, List.getLast?_append_of_ne_nil t hBne]
      exact ha
    rw [List.getLast?_reverse] at hlast
    exact dropWhile_head_false Char.isWhitespace l a hlast
  rw [h1, List.reverse_reverse, dropWhile_idem]

/-- Python's `strip` is idempotent. -/
theorem pyStrip_idem (s : String) : pyStrip (pyStrip s) = pyStrip s :=
  congrArg String.mk (stripChars_idem s.data)

/-- `validar_fecha_simple` never substitutes a date: success returns the
parsed date itself. -/
theorem validar_fecha_simple_ok {d hoy f : Int}
    (h : validar_fecha_simple (some d) hoy = .ok f) : f = d := by
  simp only [validar_fecha_simple] at h
  split at h
  · exact absurd h (by simp)
  · split at h
    · exact absurd h (by simp)
    · simpa using h.symm

/-- Filtering a pairwise-key-distinct list for the key of one of its
members returns exactly that member. -/
theorem filter_key_unique {α : Type} (key : α → Nat) {l : List α}
    (hpw : List.Pairwise (fun x y => key x ≠ key y) l) {c : α} (hc : c ∈ l)
    (k : Nat) (hk : key c = k) :
    l.filter (fun x => key x == k) = [c] := by
  induction l with
  | nil => simp at hc
  | cons a t ih =>
    rw [List.pairwise_cons] at hpw
    rcases List.mem_cons.mp hc with rfl | hct
    · rw [List.filter_cons_of_pos (by simp [hk])]
      have : t.filter (fun x => key x == k) = [] := by
        rw [List.filter_eq_nil_iff]
        intro b hb
        simp only [beq_iff_eq]
        rw [← hk]
        exact fun he => hpw.1 b hb he.symm
      rw [this]
    · rw [List.filter_cons_of_neg (by simp [← hk]; exact hpw.1 c hct)]
      exact ih hpw.2 hct

/-- Characterisation of a successful `sala_disponible` check: no stored
reservation occupies the slot. -/
theorem sala_disponible_iff {db : DB} {id_sala : Nat} {fecha : Int}
    {turno : String} :
    sala_disponible db id_sala fecha turno = true ↔
      ∀ r ∈ db.reservaciones,
        ¬(r.id_sala = id_sala ∧ r.fecha = fecha ∧ r.turno = turno) := by
  unfold sala_disponible
  rw [beq_iff_eq, List.length_eq_zero, List.filter_eq_nil_iff]
  constructor
  · intro h r hr hc
    exact h r hr (by simp [hc.1, hc.2.1, hc.2.2])
  · intro h r hr hb
    simp only [Bool.and_eq_true, beq_iff_eq] at hb
    exact h r hr ⟨hb.1.1, hb.1.2, hb.2⟩

/-- Inversion of a successful `registrar_cliente`: the stripped names are
appended with the next client id. -/
theorem registrar_cliente_ok {db db' : DB} {nombre apellidos : String}
    (h : registrar_cliente db nombre apellidos = .ok db') :
    db' = { db with
            clientes := db.clientes ++
              [⟨db.nextCliente, pyStrip nombre, pyStrip apellidos⟩],
            nextCliente := db.nextCliente + 1 } := by
  simp only [registrar_cliente] at h
  split at h
  · exact absurd h (by simp)
  · split at h
    · exact absurd h (by simp)
    · simpa using h.symm

/-- Inversion of a successful `registrar_sala`: the room is appended with
the next room id and a positive capacity. -/
theorem registrar_sala_ok {db db' : DB} {nombre : String} {cupo : Int}
    (h : registrar_sala db nombre cupo = .ok db') :
    db' = { db with
            salas := db.salas ++ [⟨db.nextSala, pyStrip nombre, cupo.toNat⟩],
            nextSala := db.nextSala + 1 } := by
  simp only [registrar_sala] at h
  split at h
  · exact absurd h (by simp)
  · split at h
    · exact absurd h (by simp)
    · simpa using h.symm

/-- Inversion of a successful `registrar_reservacion`: every check
passed, the reservation was appended with the next folio, and the
confirmation carries the resolved display names. -/
theorem registrar_reservacion_ok {db db' : DB} {conf : Confirm} {hoy : Int}
    {id_cliente : Nat} {fecha : Int} {id_sala : Nat}
    {turno_raw evento_raw : String} {hora : Nat}
    (h : registrar_reservacion db hoy id_cliente fecha id_sala turno_raw
      evento_raw hora = .ok (db', conf)) :
    ∃ c ∈ db.clientes, ∃ s ∈ db.salas,
      c.id_cliente = id_cliente ∧ s.id_sala = id_sala ∧
      (db.clientes.filter (fun x => x.id_cliente == id_cliente)).head? = some c ∧
      (db.salas.filter (fun x => x.id_sala == id_sala)).head? = some s ∧
      validar_clave_cliente id_cliente db.clientes = true ∧
      validar_fecha_simple (some fecha) hoy = .ok fecha ∧
      pyLower turno_raw ∈ turnos ∧
      sala_disponible db id_sala fecha (pyLower turno_raw) = true ∧
      pyStrip (pyStrip evento_raw) ≠ "" ∧
      conf = ⟨db.nextFolio, c.nombre ++ " " ++ c.apellidos, s.nombre, fecha,
              pyLower turno_raw, pyStrip evento_raw⟩ ∧
      db' = { db with
              reservaciones := db.reservaciones ++
                [⟨db.nextFolio, id_cliente, id_sala, fecha, hora,
                  pyLower turno_raw, pyStrip evento_raw⟩],
              nextFolio := db.nextFolio + 1 } := by
  simp only [registrar_reservacion] at h
  split at h
  · exact absurd h (by simp)
  next hne =>
  split at h
  · exact absurd h (by simp)
  next hclave =>
  split at h
  · exact absurd h (by simp)
  next f hf =>
  split at h
  · exact absurd h (by simp)
  next hsalas =>
  split at h
  · exact absurd h (by simp)
  next hdisp =>
  split at h
  · exact absurd h (by simp)
  next hturno =>
  split at h
  · exact absurd h (by simp)
  next hlibre =>
  split at h
  · exact absurd h (by simp)
  next hevento =>
  split at h
  · exact absurd h (by simp)
  next c hc =>
  split at h
  · exact absurd h (by simp)
  next s hs =>
  have hfd : f = fecha := validar_fecha_simple_ok hf
  subst hfd
  have hcmem : c ∈ db.clientes ∧ c.id_cliente = id_cliente := by
    have : c ∈ db.clientes.filter (fun x => x.id_cliente == id_cliente) :=
      List.mem_of_mem_head? (Option.mem_def.mpr hc)
    have h2 := List.mem_filter.mp this
    exact ⟨h2.1, by simpa using h2.2⟩
  have hsmem : s ∈ db.salas ∧ s.id_sala = id_sala := by
    have : s ∈ db.salas.filter (fun x => x.id_sala == id_sala) :=
      List.mem_of_mem_head? (Option.mem_def.mpr hs)
    have h2 := List.mem_filter.mp this
    exact ⟨h2.1, by simpa using h2.2⟩
  simp only [Except.ok.injEq, Prod.mk.injEq] at h
  refine ⟨c, hcmem.1, s, hsmem.1, hcmem.2, hsmem.2, hc, hs, ?_, hf, ?_, ?_, ?_,
    h.2.symm, h.1.symm⟩
  · simpa using hclave
  · have : turnos.contains (pyLower turno_raw) = true := by simpa using hturno
    simpa using this
  · simpa using hlibre
  · have : validar_evento (pyStrip evento_raw) = true := by simpa using hevento
    simpa [validar_evento] using this

/-- Inversion of a successful `editar_evento`: the range was non-empty,
the folio non-zero and present, the stripped new name non-blank, and the
update rewrote `evento` exactly on the rows with that folio. -/
theorem editar_evento_ok {db db' : DB} {fi ff : Int} {folio : Nat}
    {nuevo_raw : String}
    (h : editar_evento db fi ff folio nuevo_raw = .ok db') :
    rango_reservaciones db fi ff ≠ [] ∧ folio ≠ 0 ∧
    (∃ r ∈ rango_reservaciones db fi ff, r.folio = folio) ∧
    pyStrip nuevo_raw ≠ "" ∧
    db' = { db with
            reservaciones := db.reservaciones.map
              (fun r => if r.folio == folio
                then { r with evento := pyStrip nuevo_raw } else r) } := by
  simp only [editar_evento] at h
  split at h
  · exact absurd h (by simp)
  next hne =>
  split at h
  · exact absurd h (by simp)
  next hfolio =>
  split at h
  · exact absurd h (by simp)
  next hany =>
  split at h
  · exact absurd h (by simp)
  next hblank =>
  refine ⟨by simpa [List.isEmpty_iff] using hne, by simpa using hfolio, ?_,
    by simpa using hblank, by simpa using h.symm⟩
  have : (rango_reservaciones db fi ff).any (fun r => r.folio == folio) = true := by
    simpa using hany
  obtain ⟨r, hr, hrf⟩ := List.any_eq_true.mp this
  exact ⟨r, hr, by simpa using hrf⟩

/-- The fresh database satisfies the invariant. -/
theorem inv_empty : Inv DB.empty := by
  unfold Inv DB.empty
  refine ⟨List.Pairwise.nil, ?_, ?_, ?_, ?_, List.Pairwise.nil, ?_,
    List.Pairwise.nil⟩ <;> simp

/-- `registrar_cliente` preserves the invariant. -/
theorem inv_registrar_cliente {db db' : DB} {nombre apellidos : String}
    (hinv : Inv db) (h : registrar_cliente db nombre apellidos = .ok db') :
    Inv db' := by
  unfold Inv at hinv ⊢
  obtain ⟨i1, i2, i3, i4, i5, i6, i7, i8⟩ := hinv
  rw [registrar_cliente_ok h]
  refine ⟨i1, i2, i3, i4, ?_, ?_, i7, i8⟩
  · intro c hc
    rcases List.mem_append.mp hc with hcl | hnew
    · exact Nat.lt_succ_of_lt (i5 c hcl)
    · simp only [List.mem_singleton] at hnew
      subst hnew
      exact Nat.lt_succ_self _
  · rw [List.pairwise_append]
    refine ⟨i6, List.pairwise_singleton _ _, ?_⟩
    intro a ha b hb
    simp only [List.mem_singleton] at hb
    subst hb
    exact Nat.ne_of_lt (i5 a ha)

/-- `registrar_sala` preserves the invariant. -/
theorem inv_registrar_sala {db db' : DB} {nombre : String} {cupo : Int}
    (hinv : Inv db) (h : registrar_sala db nombre cupo = .ok db') :
    Inv db' := by
  unfold Inv at hinv ⊢
  obtain ⟨i1, i2, i3, i4, i5, i6, i7, i8⟩ := hinv
  rw [registrar_sala_ok h]
  refine ⟨i1, i2, i3, i4, i5, i6, ?_, ?_⟩
  · intro s hs
    rcases List.mem_append.mp hs with hsl | hnew
    · exact Nat.lt_succ_of_lt (i7 s hsl)
    · simp only [List.mem_singleton] at hnew
      subst hnew
      exact Nat.lt_succ_self _
  · rw [List.pairwise_append]
    refine ⟨i8, List.pairwise_singleton _ _, ?_⟩
    intro a ha b hb
    simp only [List.mem_singleton] at hb
    subst hb
    exact Nat.ne_of_lt (i7 a ha)

/-- `registrar_reservacion` preserves the invariant: in particular the
freshly inserted reservation occupies a slot that `sala_disponible` just
certified to be free. -/
theorem inv_registrar_reservacion {db db' : DB} {conf : Confirm} {hoy : Int}
    {id_cliente : Nat} {fecha : Int} {id_sala : Nat}
    {turno_raw evento_raw : String} {hora : Nat}
    (hinv : Inv db)
    (h : registrar_reservacion db hoy id_cliente fecha id_sala turno_raw
      evento_raw hora = .ok (db', conf)) : Inv db' := by
  obtain ⟨c, hcmem, s, hsmem, hcid, hsid, hch, hsh, hclave, hf, hturno, hlibre,
    hev, hconf, hdb⟩ := registrar_reservacion_ok h
  unfold Inv at hinv ⊢
  obtain ⟨i1, i2, i3, i4, i5, i6, i7, i8⟩ := hinv
  subst hdb
  refine ⟨?_, ?_, ?_, ?_, i5, i6, i7, i8⟩
  · rw [List.pairwise_append]
    refine ⟨i1, List.pairwise_singleton _ _, ?_⟩
    intro a ha b hb
    simp only [List.mem_singleton] at hb
    subst hb
    unfold SlotDistinct
    exact sala_disponible_iff.mp hlibre a ha
  · intro r hr
    rcases List.mem_append.mp hr with h1 | h2
    · exact Nat.lt_succ_of_lt (i2 r h1)
    · simp only [List.mem_singleton] at h2
      subst h2
      exact Nat.lt_succ_self _
  · intro r hr
    rcases List.mem_append.mp hr with h1 | h2
    · exact i3 r h1
    · simp only [List.mem_singleton] at h2
      subst h2
      exact hev
  · intro r hr
    rcases List.mem_append.mp hr with h1 | h2
    · exact i4 r h1
    · simp only [List.mem_singleton] at h2
      subst h2
      exact hturno

/-- The `UPDATE` of `editar_evento` touches no field besides `evento`. -/
theorem editUpd_fields (folio : Nat) (v : String) (r : Reservacion) :
    (if r.folio == folio then { r with evento := v } else r).folio = r.folio
    ∧ (if r.folio == folio then { r with evento := v } else r).id_cliente = r.id_cliente
    ∧ (if r.folio == folio then { r with evento := v } else r).id_sala = r.id_sala
    ∧ (if r.folio == folio then { r with evento := v } else r).fecha = r.fecha
    ∧ (if r.folio == folio then { r with evento := v } else r).hora = r.hora
    ∧ (if r.folio == folio then { r with evento := v } else r).turno = r.turno := by
  by_cases h : r.folio == folio <;> simp [h]

/-- `editar_evento` preserves the invariant. -/
theorem inv_editar {db db' : DB} {fi ff : Int} {folio : Nat}
    {nuevo_raw : String}
    (hinv : Inv db) (h : editar_evento db fi ff folio nuevo_raw = .ok db') :
    Inv db' := by
  obtain ⟨-, -, -, hblank, hdb⟩ := editar_evento_ok h
  unfold Inv at hinv ⊢
  obtain ⟨i1, i2, i3, i4, i5, i6, i7, i8⟩ := hinv
  subst hdb
  refine ⟨?_, ?_, ?_, ?_, i5, i6, i7, i8⟩
  · rw [List.pairwise_map]
    refine i1.imp ?_
    intro a b hab
    unfold SlotDistinct at hab ⊢
    rw [(editUpd_fields folio _ a).2.2.1, (editUpd_fields folio _ a).2.2.2.1,
      (editUpd_fields folio _ a).2.2.2.2.2,
      (editUpd_fields folio _ b).2.2.1, (editUpd_fields folio _ b).2.2.2.1,
      (editUpd_fields folio _ b).2.2.2.2.2]
    exact hab
  · intro r hr
    obtain ⟨a, ha, rfl⟩ := List.mem_map.mp hr
    rw [(editUpd_fields folio _ a).1]
    exact i2 a ha
  · intro r hr
    obtain ⟨a, ha, rfl⟩ := List.mem_map.mp hr
    by_cases hfa : a.folio == folio
    · rw [if_pos hfa]
      show pyStrip (pyStrip nuevo_raw) ≠ ""
      rw [pyStrip_idem]
      exact hblank
    · rw [if_neg hfa]
      exact i3 a ha
  · intro r hr
    obtain ⟨a, ha, rfl⟩ := List.mem_map.mp hr
    rw [(editUpd_fields folio _ a).2.2.2.2.2]
    exact i4 a ha

/-- Every reachable database state satisfies the invariant. -/
theorem inv_reach {db : DB} (h : Reach db) : Inv db := by
  induction h with
  | init => exact inv_empty
  | cliente _ _ _ hok ih => exact inv_registrar_cliente ih hok
  | sala _ _ _ hok ih => exact inv_registrar_sala ih hok
  | reservacion _ _ _ _ _ _ _ _ _ hok ih => exact inv_registrar_reservacion ih hok
  | editar _ _ _ _ _ hok ih => exact inv_editar ih hok

/-- The concrete state `dbEjRes` is reachable: register a client, a room
and a morning reservation starting from the fresh database. -/
theorem reachEjRes : Reach dbEjRes :=
  @Reach.reservacion dbEj dbEjRes ⟨1, "Ana Lopez", "Azul", 3, "mañana", "Kickoff"⟩
    0 1 3 1 "mañana" " Kickoff " 10
    (@Reach.sala dbEjCli dbEj "Azul" 4
      (@Reach.cliente DB.empty dbEjCli "Ana" "Lopez" Reach.init (by decide))
      (by decide))
    (by decide)

/-- The concrete state `dbEjDos` is reachable: one further afternoon
reservation on top of `dbEjRes`. -/
theorem reachEjDos : Reach dbEjDos :=
  @Reach.reservacion dbEjRes dbEjDos ⟨2, "Ana Lopez", "Azul", 3, "tarde", "Junta"⟩
    0 1 3 1 "tarde" "Junta" 12 reachEjRes (by decide)

/-- Claim C1: in every database state reachable through the exposed
operations, the triple (room, date, shift) is unique across the stored
reservations — no double booking. -/
theorem C1_slots_unique {db : DB} (h : Reach db) :
    List.Pairwise SlotDistinct db.reservaciones :=
  (inv_reach h).1

/-- Concrete instance of C1 at the reachable two-reservation state. -/
theorem C1_slots_unique_witness :
    List.Pairwise SlotDistinct dbEjDos.reservaciones :=
  C1_slots_unique reachEjDos

/-- Claim C4: a parsed date strictly less than 2 days ahead of today is
rejected as too soon by both validators, and a date at least 2 days ahead
passes the lead-time check (it is never rejected as too soon). -/
theorem C4_lead_time (d hoy : Int) (aceptar : String) :
    (d - hoy < 2 →
      validar_fecha (some d) hoy aceptar = .error .dateTooSoon
      ∧ validar_fecha_simple (some d) hoy = .error .dateTooSoon)
    ∧ (2 ≤ d - hoy →
      validar_fecha (some d) hoy aceptar ≠ .error .dateTooSoon
      ∧ validar_fecha_simple (some d) hoy ≠ .error .dateTooSoon) := by
  constructor
  · intro hlt
    constructor <;> simp [validar_fecha, validar_fecha_simple, if_pos hlt]
  · intro hge
    have hnlt : ¬(d - hoy < 2) := by omega
    constructor
    · simp only [validar_fecha, if_neg hnlt]
      split
      · split <;> simp
      · simp
    · simp only [validar_fecha_simple, if_neg hnlt]
      split <;> simp

/-- Concrete instance of C4: one day ahead is rejected, three days ahead
passes. -/
theorem C4_lead_time_witness :
    (validar_fecha (some 3) 2 "s" = .error .dateTooSoon
      ∧ validar_fecha_simple (some 3) 2 = .error .dateTooSoon)
    ∧ (validar_fecha (some 10) 7 "s" ≠ .error .dateTooSoon
      ∧ validar_fecha_simple (some 10) 7 ≠ .error .dateTooSoon) :=
  ⟨(C4_lead_time 3 2 "s").1 (by decide), (C4_lead_time 10 7 "s").2 (by decide)⟩

/-- Claim C5: an otherwise-valid Sunday date is rejected outright by the
strict validator; the interactive validator substitutes the next day when
the caller accepts (`s`) and rejects when the caller declines. -/
theorem C5_sunday_policy (d hoy : Int) (aceptar : String)
    (hlead : 2 ≤ d - hoy) (hsun : weekday d = 6) :
    validar_fecha_simple (some d) hoy = .error .sundayBlocked
    ∧ (pyLower aceptar = "s" → validar_fecha (some d) hoy aceptar = .ok (d + 1))
    ∧ (pyLower aceptar ≠ "s" →
        validar_fecha (some d) hoy aceptar = .error .sundayBlocked) := by
  have hnlt : ¬(d - hoy < 2) := by omega
  refine ⟨?_, ?_, ?_⟩
  · simp [validar_fecha_simple, if_neg hnlt, hsun]
  · intro ha
    simp [validar_fecha, if_neg hnlt, hsun, ha]
  · intro ha
    simp [validar_fecha, if_neg hnlt, hsun, ha]

/-- Concrete instance of C5: ordinal 7 is a Sunday; the strict validator
rejects it and the interactive validator, on acceptance, returns
ordinal 8. -/
theorem C5_sunday_policy_witness :
    validar_fecha_simple (some 7) 0 = .error .sundayBlocked
    ∧ validar_fecha (some 7) 0 "S" = .ok 8 :=
  ⟨(C5_sunday_policy 7 0 "S" (by decide) (by decide)).1,
   (C5_sunday_policy 7 0 "S" (by decide) (by decide)).2.1 (by decide)⟩

/-- Claim C10: every date the interactive validator returns — the parsed
date or the accepted Sunday-plus-one substitute, which is never
re-validated — is not a Sunday and lies at least 2 days after today. -/
theorem C10_validator_invariant (parsed : Option Int) (hoy : Int)
    (aceptar : String) (d : Int)
    (h : validar_fecha parsed hoy aceptar = .ok d) :
    weekday d ≠ 6 ∧ 2 ≤ d - hoy := by
  cases parsed with
  | none => exact absurd h (by simp [validar_fecha])
  | some f =>
    simp only [validar_fecha] at h
    split at h
    · exact absurd h (by simp)
    next hnlt =>
      split at h
      next hsun =>
        split at h
        · have hd : f + 1 = d := by simpa using h
          subst hd
          unfold weekday at hsun ⊢
          constructor <;> omega
        · exact absurd h (by simp)
      next hsun =>
        have hd : f = d := by simpa using h
        subst hd
        unfold weekday at hsun ⊢
        exact ⟨hsun, by omega⟩

/-- Concrete instance of C10: the substituted date 8 (a Monday) returned
for the accepted Sunday 7 satisfies both conditions. -/
theorem C10_validator_invariant_witness : weekday 8 ≠ 6 ∧ 2 ≤ 8 - (0 : Int) :=
  C10_validator_invariant (some 7) 0 "s" 8 (by decide)

/-- Claim C7: after trimming, no stored reservation of a reachable state
has an empty event name; and editing with a blank (whitespace-only) new
name fails with the blank-event error, so the stored name is left
unchanged (failed operations do not touch the state). -/
theorem C7_event_nonblank :
    (∀ db : DB, Reach db → ∀ r ∈ db.reservaciones, pyStrip r.evento ≠ "")
    ∧ (∀ (db : DB) (fi ff : Int) (folio : Nat) (nuevo : String),
        rango_reservaciones db fi ff ≠ [] → folio ≠ 0 →
        (∃ r ∈ rango_reservaciones db fi ff, r.folio = folio) →
        pyStrip nuevo = "" →
        editar_evento db fi ff folio nuevo = .error .eventoVacio) := by
  constructor
  · intro db h
    exact (inv_reach h).2.2.1
  · intro db fi ff folio nuevo hne hf0 hex hblank
    obtain ⟨r, hr, hrf⟩ := hex
    simp only [editar_evento]
    rw [if_neg (by simp [List.isEmpty_iff, hne]),
      if_neg (by simp [hf0]),
      if_neg (by simp [List.any_eq_true]; exact ⟨r, hr, hrf⟩),
      if_pos (by simp [hblank])]

/-- Concrete instance of C7 at the reachable state `dbEjDos`: its stored
event names survive trimming, and a whitespace-only edit fails. -/
theorem C7_event_nonblank_witness :
    pyStrip (Reservacion.mk 1 1 1 3 10 "mañana" "Kickoff").evento ≠ ""
    ∧ editar_evento dbEjDos 0 10 1 "   " = .error .eventoVacio :=
  ⟨C7_event_nonblank.1 dbEjDos reachEjDos _ (by decide),
   C7_event_nonblank.2 dbEjDos 0 10 1 "   " (by decide) (by decide)
     (by decide) (by decide)⟩

/-- Claim C8: a successful event-name edit leaves the client and room
tables and all counters unchanged, and rewrites the reservation list
pointwise — every reservation keeps its folio, client, room, date,
creation time and shift; a reservation with a different folio keeps its
event name, and the targeted folio receives exactly the stripped new
name. -/
theorem C8_edit_frame {db db' : DB} {fi ff : Int} {folio : Nat}
    {nuevo : String}
    (h : editar_evento db fi ff folio nuevo = .ok db') :
    db'.clientes = db.clientes ∧ db'.salas = db.salas
    ∧ db'.nextCliente = db.nextCliente ∧ db'.nextSala = db.nextSala
    ∧ db'.nextFolio = db.nextFolio
    ∧ List.Forall₂ (fun r r' : Reservacion =>
        r'.folio = r.folio ∧ r'.id_cliente = r.id_cliente
        ∧ r'.id_sala = r.id_sala ∧ r'.fecha = r.fecha ∧ r'.hora = r.hora
        ∧ r'.turno = r.turno
        ∧ (r.folio ≠ folio → r'.evento = r.evento)
        ∧ (r.folio = folio → r'.evento = pyStrip nuevo))
      db.reservaciones db'.reservaciones := by
  obtain ⟨-, -, -, -, hdb⟩ := editar_evento_ok h
  subst hdb
  refine ⟨rfl, rfl, rfl, rfl, rfl, ?_⟩
  rw [List.forall₂_map_right_iff]
  refine List.forall₂_same.mpr ?_
  intro r hr
  by_cases hf : r.folio = folio
  · rw [if_pos (by simp [hf])]
    exact ⟨rfl, rfl, rfl, rfl, rfl, rfl, fun hc => absurd hf hc, fun _ => rfl⟩
  · rw [if_neg (by simp [hf])]
    exact ⟨rfl, rfl, rfl, rfl, rfl, rfl, fun _ => rfl, fun hc => absurd hc hf⟩

/-- Concrete instance of C8: editing folio 1 of `dbEjRes` to `Nuevo`
yields `dbEjResEd`, untouched except for that event name. -/
theorem C8_edit_frame_witness :
    dbEjResEd.clientes = dbEjRes.clientes ∧ dbEjResEd.salas = dbEjRes.salas
    ∧ dbEjResEd.nextCliente = dbEjRes.nextCliente
    ∧ dbEjResEd.nextSala = dbEjRes.nextSala
    ∧ dbEjResEd.nextFolio = dbEjRes.nextFolio
    ∧ List.Forall₂ (fun r r' : Reservacion =>
        r'.folio = r.folio ∧ r'.id_cliente = r.id_cliente
        ∧ r'.id_sala = r.id_sala ∧ r'.fecha = r.fecha ∧ r'.hora = r.hora
        ∧ r'.turno = r.turno
        ∧ (r.folio ≠ 1 → r'.evento = r.evento)
        ∧ (r.folio = 1 → r'.evento = pyStrip " Nuevo "))
      dbEjRes.reservaciones dbEjResEd.reservaciones :=
  @C8_edit_frame dbEjRes dbEjResEd 0 10 1 " Nuevo " (by decide)

/-- Claim C2: `sala_disponible` is true exactly when no stored
reservation matches the room, date and shift; `turnos_libres` is exactly
the subset of the three fixed shifts with no such match; and a create
that reaches the slot check on an occupied slot fails with the
shift-occupied error. -/
theorem C2_availability :
    (∀ (db : DB) (is : Nat) (f : Int) (t : String),
      sala_disponible db is f t = true ↔
        ∀ r ∈ db.reservaciones, ¬(r.id_sala = is ∧ r.fecha = f ∧ r.turno = t))
    ∧ (∀ (db : DB) (is : Nat) (f : Int) (t : String),
      t ∈ turnos_libres db is f ↔
        t ∈ turnos ∧
          ∀ r ∈ db.reservaciones, ¬(r.id_sala = is ∧ r.fecha = f ∧ r.turno = t))
    ∧ (∀ (db : DB) (hoy : Int) (ic : Nat) (f : Int) (is : Nat)
        (traw eraw : String) (hora : Nat),
        db.clientes ≠ [] →
        validar_clave_cliente ic db.clientes = true →
        validar_fecha_simple (some f) hoy = .ok f →
        db.salas ≠ [] →
        disponible_salas db f ≠ [] →
        pyLower traw ∈ turnos →
        (∃ r ∈ db.reservaciones,
          r.id_sala = is ∧ r.fecha = f ∧ r.turno = pyLower traw) →
        registrar_reservacion db hoy ic f is traw eraw hora
          = .error .salaOcupada) := by
  refine ⟨fun db is f t => sala_disponible_iff, ?_, ?_⟩
  · intro db is f t
    simp [turnos_libres, List.mem_filter, sala_disponible_iff]
  · intro db hoy ic f is traw eraw hora h1 h2 h3 h4 h5 h6 h7
    have hocc : sala_disponible db is f (pyLower traw) = false := by
      rw [Bool.eq_false_iff]
      intro htrue
      obtain ⟨r, hr, hc⟩ := h7
      exact sala_disponible_iff.mp htrue r hr hc
    have hcont : turnos.contains (pyLower traw) = true := by simpa using h6
    simp [registrar_reservacion, h2, h3, hocc, hcont, h6, List.isEmpty_iff,
      h1, h4, h5]

/-- Concrete instance of C2 at `dbEjRes`: the afternoon of the booked
room is free and listed, and re-creating the occupied morning slot fails
as occupied. -/
theorem C2_availability_witness :
    sala_disponible dbEjRes 1 3 "tarde" = true
    ∧ "tarde" ∈ turnos_libres dbEjRes 1 3
    ∧ registrar_reservacion dbEjRes 0 1 3 1 "mañana" "Otro" 11
        = .error .salaOcupada :=
  ⟨(C2_availability.1 dbEjRes 1 3 "tarde").mpr (by decide),
   (C2_availability.2.1 dbEjRes 1 3 "tarde").mpr (by decide),
   C2_availability.2.2 dbEjRes 0 1 3 1 "mañana" "Otro" 11 (by decide)
     (by decide) (by decide) (by decide) (by decide) (by decide) (by decide)⟩

/-- Claim C3 is false on the code: with client 1 valid, room 1's morning
slot occupied and a whitespace-only event name, the flow reports the
occupied slot, not the blank event name the claimed order requires; and
with an unknown room id 9 and a free slot the flow does not fail with any
unknown-room precondition — it passes every check and aborts at the
post-insert room-name lookup. -/
theorem C3_counterexample :
    registrar_reservacion dbEjRes 0 1 3 1 "mañana" "   " 11
      = .error .salaOcupada
    ∧ registrar_reservacion dbEjRes 0 1 3 1 "mañana" "   " 11
        ≠ .error .eventoVacio
    ∧ registrar_reservacion dbEjRes 0 1 3 9 "tarde" "Fiesta" 11
        = .error .salaNoExiste :=
  ⟨by decide, by decide, by decide⟩

/-- Claim C3 as amended: the checks run in the order unknown client,
invalid date, empty room table, no room with a free shift, invalid shift
label, occupied slot, blank event name — the occupied-slot check precedes
the blank-name check, and room-id existence is never a precondition: an
unknown room id with a free slot passes every check and the flow fails
only at the post-insert display-name lookup (the insert is rolled back,
leaving the state unchanged). -/
theorem C3_check_order (db : DB) (hoy : Int) (ic : Nat) (f : Int) (is : Nat)
    (traw eraw : String) (hora : Nat) (hcl : db.clientes ≠ []) :
    (validar_clave_cliente ic db.clientes = false →
      registrar_reservacion db hoy ic f is traw eraw hora
        = .error .clienteNoEncontrado)
    ∧ (validar_clave_cliente ic db.clientes = true →
        validar_fecha_simple (some f) hoy = .ok f →
        db.salas ≠ [] → disponible_salas db f ≠ [] →
        pyLower traw ∈ turnos →
        sala_disponible db is f (pyLower traw) = false →
        registrar_reservacion db hoy ic f is traw eraw hora
          = .error .salaOcupada)
    ∧ (validar_clave_cliente ic db.clientes = true →
        validar_fecha_simple (some f) hoy = .ok f →
        db.salas ≠ [] → disponible_salas db f ≠ [] →
        pyLower traw ∈ turnos →
        sala_disponible db is f (pyLower traw) = true →
        pyStrip (pyStrip eraw) = "" →
        registrar_reservacion db hoy ic f is traw eraw hora
          = .error .eventoVacio)
    ∧ (validar_clave_cliente ic db.clientes = true →
        validar_fecha_simple (some f) hoy = .ok f →
        db.salas ≠ [] → disponible_salas db f ≠ [] →
        pyLower traw ∈ turnos →
        sala_disponible db is f (pyLower traw) = true →
        pyStrip (pyStrip eraw) ≠ "" →
        (∀ s ∈ db.salas, s.id_sala ≠ is) →
        registrar_reservacion db hoy ic f is traw eraw hora
          = .error .salaNoExiste) := by
  refine ⟨?_, ?_, ?_, ?_⟩
  · intro h2
    simp [registrar_reservacion, h2, List.isEmpty_iff, hcl]
  · intro h2 h3 h4 h5 h6 hocc
    have hcont : turnos.contains (pyLower traw) = true := by simpa using h6
    simp [registrar_reservacion, h2, h3, hocc, hcont, h6, List.isEmpty_iff,
      hcl, h4, h5]
  · intro h2 h3 h4 h5 h6 hfree hblank
    have hcont : turnos.contains (pyLower traw) = true := by simpa using h6
    have hev : validar_evento (pyStrip eraw) = false := by
      simp [validar_evento, hblank]
    simp [registrar_reservacion, h2, h3, hfree, hcont, hev, h6,
      List.isEmpty_iff, hcl, h4, h5]
  · intro h2 h3 h4 h5 h6 hfree hnonblank hnosala
    have hcont : turnos.contains (pyLower traw) = true := by simpa using h6
    have hev : validar_evento (pyStrip eraw) = true := by
      simp [validar_evento, hnonblank]
    have hcfil : db.clientes.filter (fun c => c.id_cliente == ic) ≠ [] := by
      obtain ⟨c, hc, hcb⟩ := List.any_eq_true.mp h2
      intro hnil
      rw [List.filter_eq_nil_iff] at hnil
      exact hnil c hc hcb
    obtain ⟨c, hcsome⟩ := Option.ne_none_iff_exists'.mp
      (fun hnone => hcfil (List.head?_eq_none_iff.mp hnone))
    have hsfil : db.salas.filter (fun s => s.id_sala == is) = [] := by
      rw [List.filter_eq_nil_iff]
      intro s hs
      simpa using hnosala s hs
    simp [registrar_reservacion, h2, h3, hfree, hcont, hev, h6, hcsome, hsfil,
      List.isEmpty_iff, hcl, h4, h5]

/-- Concrete instance of the amended C3: an unknown client key fails
first, and an unknown room id still sails past every precondition check
to the failing lookup. -/
theorem C3_check_order_witness :
    registrar_reservacion dbEjRes 0 5 3 1 "mañana" "X" 11
      = .error .clienteNoEncontrado
    ∧ registrar_reservacion dbEjRes 0 1 3 9 "noche" "Fiesta" 11
        = .error .salaNoExiste :=
  ⟨(C3_check_order dbEjRes 0 5 3 1 "mañana" "X" 11 (by decide)).1 (by decide),
   (C3_check_order dbEjRes 0 1 3 9 "noche" "Fiesta" 11 (by decide)).2.2.2
     (by decide) (by decide) (by decide) (by decide) (by decide) (by decide)
     (by decide) (by decide)⟩

/-- Claim C9 is false on the code: `ORDER BY r.turno` sorts the raw
Spanish shift labels, and `"noche"` (evening) precedes `"tarde"`
(afternoon) in that order, so the report for date 3 lists the evening
reservation before the afternoon one, violating the spec's
morning-afternoon-evening order. -/
theorem C9_counterexample :
    consultar_reservaciones dbEjTN 3 =
      [⟨2, "Ana Lopez", "Azul", "noche", "E2"⟩,
       ⟨1, "Ana Lopez", "Azul", "tarde", "E1"⟩]
    ∧ ¬ SpecShiftOrdered (consultar_reservaciones dbEjTN 3) := by
  constructor
  · decide
  · unfold SpecShiftOrdered
    decide

/-- Claim C9 as amended: `findByDate` returns exactly the joined rows of
the date (client and room display names resolved), ordered by the raw
shift label under the BINARY collation — `mañana` (morning), then `noche`
(evening), then `tarde` (afternoon). -/
theorem C9_order_by_turno (db : DB) (fecha : Int) :
    List.Sorted registroLe (consultar_reservaciones db fecha)
    ∧ (consultar_reservaciones db fecha).Perm (joinRows db fecha) :=
  ⟨List.sorted_insertionSort registroLe (joinRows db fecha),
   List.perm_insertionSort registroLe (joinRows db fecha)⟩

/-- Every row the consultation join produces carries the folio of one of
the stored reservations. -/
theorem joinRows_folio {db : DB} {f : Int} {g : Registro}
    (hg : g ∈ joinRows db f) : ∃ r ∈ db.reservaciones, g.folio = r.folio := by
  unfold joinRows at hg
  rw [List.mem_flatMap] at hg
  obtain ⟨r, hr, hg2⟩ := hg
  rw [List.mem_flatMap] at hg2
  obtain ⟨c, hc, hg3⟩ := hg2
  rw [List.mem_map] at hg3
  obtain ⟨s, hs, rfl⟩ := hg3
  exact ⟨r, (List.mem_filter.mp hr).1, rfl⟩

/-- Claim C6: after a successful create on a reachable state, the daily
consultation of that date contains exactly one row with the new folio,
and that row carries the confirmed client display name, room name, shift
and event. -/
theorem C6_create_then_find {db db' : DB} {conf : Confirm} {hoy : Int}
    {ic : Nat} {f : Int} {is : Nat} {traw eraw : String} {hora : Nat}
    (hreach : Reach db)
    (h : registrar_reservacion db hoy ic f is traw eraw hora = .ok (db', conf)) :
    (consultar_reservaciones db' f).filter (fun g => g.folio == conf.folio)
      = [⟨conf.folio, conf.cliente, conf.sala, conf.turno, conf.evento⟩] := by
  have hinv := inv_reach hreach
  unfold Inv at hinv
  obtain ⟨i1, i2, i3, i4, i5, i6, i7, i8⟩ := hinv
  obtain ⟨c, hcmem, s, hsmem, hcid, hsid, hch, hsh, hclave, hf, hturno,
    hlibre, hev, hconf, hdb⟩ := registrar_reservacion_ok h
  subst hdb
  subst hconf
  have hcfil : db.clientes.filter (fun x => x.id_cliente == ic) = [c] :=
    filter_key_unique (fun x => x.id_cliente) i6 hcmem ic hcid
  have hsfil : db.salas.filter (fun x => x.id_sala == is) = [s] :=
    filter_key_unique (fun x => x.id_sala) i8 hsmem is hsid
  have hjoin : joinRows
      { db with
        reservaciones := db.reservaciones ++
          [⟨db.nextFolio, ic, is, f, hora, pyLower traw, pyStrip eraw⟩],
        nextFolio := db.nextFolio + 1 } f
      = joinRows db f ++
        [⟨db.nextFolio, c.nombre ++ " " ++ c.apellidos, s.nombre,
          pyLower traw, pyStrip eraw⟩] := by
    unfold joinRows
    dsimp only
    rw [List.filter_append, List.flatMap_append]
    congr 1
    simp [hcfil, hsfil]
  have hold : (joinRows db f).filter (fun g => g.folio == db.nextFolio)
      = [] := by
    rw [List.filter_eq_nil_iff]
    intro g hg
    obtain ⟨r, hr, hgr⟩ := joinRows_folio hg
    have := i2 r hr
    simp only [beq_iff_eq, hgr]
    omega
  have hnew : ([⟨db.nextFolio, c.nombre ++ " " ++ c.apellidos, s.nombre,
      pyLower traw, pyStrip eraw⟩] : List Registro).filter
        (fun g => g.folio == db.nextFolio) =
      [⟨db.nextFolio, c.nombre ++ " " ++ c.apellidos, s.nombre,
        pyLower traw, pyStrip eraw⟩] := by
    simp
  refine List.perm_singleton.mp ?_
  have hp1 : (consultar_reservaciones
      { db with
        reservaciones := db.reservaciones ++
          [⟨db.nextFolio, ic, is, f, hora, pyLower traw, pyStrip eraw⟩],
        nextFolio := db.nextFolio + 1 } f).Perm (joinRows
      { db with
        reservaciones := db.reservaciones ++
          [⟨db.nextFolio, ic, is, f, hora, pyLower traw, pyStrip eraw⟩],
        nextFolio := db.nextFolio + 1 } f) :=
    List.perm_insertionSort registroLe _
  have h2 := hp1.filter (fun g => g.folio == db.nextFolio)
  rw [hjoin, List.filter_append, hold, hnew, List.nil_append] at h2
  exact h2

/-- Concrete instance of C6: creating the afternoon reservation on the
reachable state `dbEjRes` makes the consultation of date 3 list folio 2
exactly once with its confirmed names. -/
theorem C6_create_then_find_witness :
    (consultar_reservaciones dbEjDos 3).filter (fun g => g.folio == (2 : Nat))
      = [⟨2, "Ana Lopez", "Azul", "tarde", "Junta"⟩] :=
  @C6_create_then_find dbEjRes dbEjDos
    ⟨2, "Ana Lopez", "Azul", 3, "tarde", "Junta"⟩ 0 1 3 1 "tarde" "Junta" 12
    reachEjRes (by decide)

end Evidencia
